import Mathlib

/-!
Shallow embedding of the benchmark-ocr repository's retry executor,
JSON-candidate recovery, model registry and usage accounting, together
with proofs of the specification claims about them.

Sources embedded:
- `AWSBedrockMistralProvider` and `AWSBedrockPixtralProvider`
  (retry loop `executeWithRetry`, the JSON-recovery strategies in
  `extractFromText`, the unsupported image operations, retry constants);
- `src/models/registry.ts` (`MODEL_PROVIDERS`, `getModelProvider`);
- `src/models/shared/tokenCost.ts` (`TOKEN_COST`, `calculateTokenCost`);
- the `Usage` records assembled by the provider calls.
-/

/-- A JavaScript error value as inspected by the retry loop: its `name`
field, the optional `$metadata.httpStatusCode`, and its `message`. -/
structure JsError where
  name : String
  httpStatusCode : Option Nat
  message : String
deriving DecidableEq, Repr

/-- Result of one invocation of the wrapped operation: it either resolves
with a value or rejects with a JavaScript error. -/
inductive Outcome (α : Type) where
  | ok (v : α)
  | err (e : JsError)
deriving DecidableEq, Repr

/-- Throttling test from the catch block of `executeWithRetry`:
`error.name === 'ThrottlingException' || error.$metadata?.httpStatusCode === 429`. -/
def isThrottling (e : JsError) : Bool :=
  e.name == "ThrottlingException" || e.httpStatusCode == some 429

/-- True when the operation rejects at attempt `i` with a throttling error. -/
def failsThrottling {α : Type} (op : Nat → Outcome α) (i : Nat) : Bool :=
  match op i with
  | .ok _ => false
  | .err e => isThrottling e

/-- Message of the terminal error thrown after the retry loop exits:
`` `${operationName} failed after ${MAX_RETRIES + 1} attempts. Last error: ${lastError.message}` ``. -/
def terminalMsg (operationName : String) (maxRetries : Nat) (lastMessage : String) : String :=
  operationName ++ " failed after " ++ toString (maxRetries + 1) ++
    " attempts. Last error: " ++ lastMessage

/-- How a call to `executeWithRetry` ends: the operation's success value,
an immediately rethrown (non-throttling) error, or the terminal error
thrown once the loop over attempts is exhausted. -/
inductive RetryOutcome (α : Type) where
  | success (v : α)
  | thrown (e : JsError)
  | exhausted (msg : String)
deriving DecidableEq, Repr

/-- Observable trace of one `executeWithRetry` call: final outcome, the
list of backoff sleeps performed (in ms, in order), and how many times
the operation was invoked. -/
structure RetryTrace (α : Type) where
  result : RetryOutcome α
  sleeps : List Nat
  attempts : Nat
deriving DecidableEq, Repr

/-- One iteration of the `for (let attempt = 0; attempt <= MAX_RETRIES; attempt++)`
loop of `executeWithRetry`, with `fuel` counting the iterations the loop
condition still allows (`MAX_RETRIES + 1 - attempt`).  Before retries
(`attempt > 0`) it sleeps `Math.min(BASE_DELAY * Math.pow(2, attempt - 1), MAX_DELAY)`.
A throttling rejection records the error message and moves to the next
iteration; any other rejection is rethrown at once; when the loop exits,
the terminal error wrapping the last message is thrown. -/
def retryLoop {α : Type} (maxRetries baseDelay maxDelay : Nat) (op : Nat → Outcome α)
    (operationName : String) : Nat → Nat → String → RetryTrace α
  | 0, _, lastMessage =>
    ⟨.exhausted (terminalMsg operationName maxRetries lastMessage), [], 0⟩
  | fuel + 1, attempt, lastMessage =>
    let sleepsNow : List Nat :=
      if attempt > 0 then [min (baseDelay * 2 ^ (attempt - 1)) maxDelay] else []
    match op attempt with
    | .ok v => ⟨.success v, sleepsNow, 1⟩
    | .err e =>
      if isThrottling e then
        let t := retryLoop maxRetries baseDelay maxDelay op operationName fuel (attempt + 1) e.message
        ⟨t.result, sleepsNow ++ t.sleeps, t.attempts + 1⟩
      else
        ⟨.thrown e, sleepsNow, 1⟩

/-- `executeWithRetry(operation, operationName)` of the AWS Bedrock
providers, as the trace of the attempt loop started at attempt 0 with
`MAX_RETRIES + 1` iterations available and no last error recorded. -/
def executeWithRetry {α : Type} (maxRetries baseDelay maxDelay : Nat) (op : Nat → Outcome α)
    (operationName : String) : RetryTrace α :=
  retryLoop maxRetries baseDelay maxDelay op operationName (maxRetries + 1) 0 ""

namespace AWSBedrockMistral

/-- Retry configuration of `AWSBedrockMistralProvider`. -/
def MAX_RETRIES : Nat := 5

/-- Base backoff delay (ms) of `AWSBedrockMistralProvider`. -/
def BASE_DELAY : Nat := 1000

/-- Maximum backoff delay (ms) of `AWSBedrockMistralProvider`. -/
def MAX_DELAY : Nat := 30000

end AWSBedrockMistral

namespace AWSBedrockPixtral

/-- Retry configuration of `AWSBedrockPixtralProvider`. -/
def MAX_RETRIES : Nat := 5

/-- Base backoff delay (ms) of `AWSBedrockPixtralProvider`. -/
def BASE_DELAY : Nat := 2000

/-- Maximum backoff delay (ms) of `AWSBedrockPixtralProvider`. -/
def MAX_DELAY : Nat := 60000

end AWSBedrockPixtral

/-- Message of the error at attempt `i`, or the initial empty string on a
resolution (only used where the outcome is known to be an error). -/
def lastMsgOf {α : Type} : Outcome α → String
  | .ok _ => ""
  | .err e => e.message

/-- A throttling failure at attempt `i` exposes its error value. -/
lemma failsThrottling_elim {α : Type} {op : Nat → Outcome α} {i : Nat}
    (h : failsThrottling op i = true) :
    ∃ e, op i = .err e ∧ isThrottling e = true := by
  unfold failsThrottling at h
  cases hop : op i with
  | ok v => rw [hop] at h; exact absurd h (by simp)
  | err e => rw [hop] at h; exact ⟨e, rfl, h⟩


/-- The backoff sleeps performed by the retry loop over `n` consecutive
iterations starting at attempt number `attempt`: each iteration with a
positive attempt number sleeps `min(baseDelay * 2^(attempt-1), maxDelay)`. -/
def delaysFrom (b m attempt : Nat) : Nat → List Nat
  | 0 => []
  | n + 1 => min (b * 2 ^ (attempt - 1)) m :: delaysFrom b m (attempt + 1) n

/-- The sleeps of `n` iterations starting at attempt `a + 1` are the
exponential backoff delays `min(b * 2^(a+i), m)` for `i < n`. -/
lemma delaysFrom_eq_range (b m : Nat) :
    ∀ (n a : Nat), delaysFrom b m (a + 1) n = (List.range n).map (fun i => min (b * 2 ^ (a + i)) m) := by
  intro n
  induction n with
  | zero => intro a; rfl
  | succ n ih =>
    intro a
    rw [delaysFrom, List.range_succ_eq_map, List.map_cons, List.map_map]
    congr 1
    rw [ih (a + 1)]
    refine List.map_congr_left fun i _ => ?_
    simp only [Function.comp_apply, Nat.succ_eq_add_one]
    have h2 : a + 1 + i = a + (i + 1) := by omega
    rw [h2]

/-- Run of the retry loop from attempt `attempt ≥ 1` when the operation
throttles `k` more times and then resolves: success after `k + 1` further
invocations, sleeping before each of them. -/
lemma retryLoop_success {α : Type} (maxR b m : Nat) (op : Nat → Outcome α) (name : String) :
    ∀ (k attempt fuel : Nat) (lastMessage : String) (v : α),
      1 ≤ attempt → k < fuel →
      (∀ i, i < k → failsThrottling op (attempt + i) = true) →
      op (attempt + k) = .ok v →
      retryLoop maxR b m op name fuel attempt lastMessage =
        ⟨.success v, delaysFrom b m attempt (k + 1), k + 1⟩ := by
  intro k
  induction k with
  | zero =>
    intro attempt fuel lastMessage v hatt hfuel _ hsucc
    obtain ⟨f, rfl⟩ : ∃ f, fuel = f + 1 := ⟨fuel - 1, by omega⟩
    rw [Nat.add_zero] at hsucc
    have hpos : attempt > 0 := hatt
    simp [retryLoop, delaysFrom, hsucc, hpos]
  | succ k ih =>
    intro attempt fuel lastMessage v hatt hfuel hfail hsucc
    obtain ⟨f, rfl⟩ : ∃ f, fuel = f + 1 := ⟨fuel - 1, by omega⟩
    obtain ⟨e, hop, hthr⟩ := failsThrottling_elim (hfail 0 (Nat.succ_pos k))
    rw [Nat.add_zero] at hop
    have hpos : attempt > 0 := hatt
    have ihres := ih (attempt + 1) f e.message v (by omega) (by omega)
      (fun i hi => by
        have := hfail (i + 1) (by omega)
        rwa [show attempt + (i + 1) = attempt + 1 + i by omega] at this)
      (by rwa [show attempt + 1 + k = attempt + (k + 1) by omega])
    simp [retryLoop, hop, hthr, hpos, ihres, delaysFrom]

/-- C1: an operation that throttles exactly `k < maxRetries` times and then
succeeds makes `executeWithRetry` return the success after `k + 1` attempts,
sleeping exactly `k` times; the sleep before the `i`-th retry is
`min(baseDelay * 2^(i-1), maxDelay)`, so the delays are non-decreasing and
capped at `maxDelay`. -/
theorem executeWithRetry_transient_then_success {α : Type} (maxR b m k : Nat) (v : α)
    (op : Nat → Outcome α) (name : String)
    (hk : k < maxR)
    (hfail : ∀ i, i < k → failsThrottling op i = true)
    (hsucc : op k = .ok v) :
    executeWithRetry maxR b m op name =
      ⟨.success v, (List.range k).map (fun i => min (b * 2 ^ i) m), k + 1⟩ ∧
    ((List.range k).map (fun i => min (b * 2 ^ i) m)).Pairwise (· ≤ ·) ∧
    ∀ d ∈ (List.range k).map (fun i => min (b * 2 ^ i) m), d ≤ m := by
  refine ⟨?_, ?_, ?_⟩
  · unfold executeWithRetry
    cases k with
    | zero => simp [retryLoop, hsucc]
    | succ k' =>
      obtain ⟨e, hop, hthr⟩ := failsThrottling_elim (hfail 0 (Nat.succ_pos k'))
      have ihres := retryLoop_success maxR b m op name k' 1 maxR e.message v le_rfl
        (by omega)
        (fun i hi => by
          have := hfail (i + 1) (by omega)
          rwa [show i + 1 = 1 + i by omega] at this)
        (by rwa [show 1 + k' = k' + 1 by omega])
      have hdel := delaysFrom_eq_range b m (k' + 1) 0
      simp only [Nat.zero_add] at hdel
      simp [retryLoop, hop, hthr, ihres, hdel]
  · refine (List.pairwise_lt_range k).map _ ?_
    intro i j hij
    exact min_le_min (Nat.mul_le_mul_left b (Nat.pow_le_pow_right (by norm_num) hij.le)) le_rfl
  · intro d hd
    obtain ⟨i, _, rfl⟩ := List.mem_map.mp hd
    exact min_le_right _ _

/-- Single unfolding of a throttled retry-loop iteration at a positive
attempt number: record the sleep and move to the next attempt. -/
lemma retryLoop_throttle_step {α : Type} (maxR b m : Nat) (op : Nat → Outcome α) (name : String)
    (fuel attempt : Nat) (lastMessage : String) (e : JsError)
    (hop : op attempt = .err e) (hthr : isThrottling e = true) (hpos : 0 < attempt) :
    retryLoop maxR b m op name (fuel + 1) attempt lastMessage =
      ⟨(retryLoop maxR b m op name fuel (attempt + 1) e.message).result,
       min (b * 2 ^ (attempt - 1)) m ::
         (retryLoop maxR b m op name fuel (attempt + 1) e.message).sleeps,
       (retryLoop maxR b m op name fuel (attempt + 1) e.message).attempts + 1⟩ := by
  simp [retryLoop, hop, hthr, hpos]

/-- Single unfolding of a throttled retry-loop iteration at attempt 0:
no sleep is performed before the very first attempt. -/
lemma retryLoop_throttle_step_zero {α : Type} (maxR b m : Nat) (op : Nat → Outcome α)
    (name : String) (fuel : Nat) (lastMessage : String) (e : JsError)
    (hop : op 0 = .err e) (hthr : isThrottling e = true) :
    retryLoop maxR b m op name (fuel + 1) 0 lastMessage =
      ⟨(retryLoop maxR b m op name fuel 1 e.message).result,
       (retryLoop maxR b m op name fuel 1 e.message).sleeps,
       (retryLoop maxR b m op name fuel 1 e.message).attempts + 1⟩ := by
  simp [retryLoop, hop, hthr]

/-- Run of the retry loop from attempt `attempt ≥ 1` when the operation
throttles at that attempt and at every later one up to `maxRetries`: the
remaining `j + 1` iterations all fail, the loop exits, and the terminal
error wraps the message of the error of the last attempt. -/
lemma retryLoop_exhausted {α : Type} (maxR b m : Nat) (op : Nat → Outcome α) (name : String) :
    ∀ (j attempt : Nat) (lastMessage : String),
      1 ≤ attempt → attempt + j = maxR →
      (∀ i, attempt ≤ i → i ≤ maxR → failsThrottling op i = true) →
      retryLoop maxR b m op name (j + 1) attempt lastMessage =
        ⟨.exhausted (terminalMsg name maxR (lastMsgOf (op maxR))),
         delaysFrom b m attempt (j + 1), j + 1⟩ := by
  intro j
  induction j with
  | zero =>
    intro attempt lastMessage hatt htop hfail
    rw [Nat.add_zero] at htop
    subst htop
    obtain ⟨e, hop, hthr⟩ := failsThrottling_elim (hfail attempt le_rfl le_rfl)
    have hpos : attempt > 0 := hatt
    simp [retryLoop, hop, hthr, hpos, delaysFrom, lastMsgOf]
  | succ j ih =>
    intro attempt lastMessage hatt htop hfail
    obtain ⟨e, hop, hthr⟩ := failsThrottling_elim (hfail attempt le_rfl (by omega))
    have hpos : attempt > 0 := hatt
    have ihres := ih (attempt + 1) e.message (by omega) (by omega)
      (fun i hi1 hi2 => hfail i (by omega) hi2)
    rw [retryLoop_throttle_step maxR b m op name (j + 1) attempt lastMessage e hop hthr hpos,
      ihres]
    simp [delaysFrom]

/-- C2: an operation that throttles on every attempt makes `executeWithRetry`
fail after exactly `maxRetries + 1` attempts, with a terminal error message
that wraps the last underlying error message and states the number of
attempts made, having slept before each of the `maxRetries` retries. -/
theorem executeWithRetry_always_throttled {α : Type} (maxR b m : Nat)
    (op : Nat → Outcome α) (name : String)
    (hfail : ∀ i, i ≤ maxR → failsThrottling op i = true) :
    executeWithRetry maxR b m op name =
      ⟨.exhausted (terminalMsg name maxR (lastMsgOf (op maxR))),
       (List.range maxR).map (fun i => min (b * 2 ^ i) m), maxR + 1⟩ := by
  unfold executeWithRetry
  obtain ⟨e, hop, hthr⟩ := failsThrottling_elim (hfail 0 (Nat.zero_le maxR))
  cases maxR with
  | zero =>
    simp [retryLoop, hop, hthr, terminalMsg, lastMsgOf]
  | succ j =>
    have ihres := retryLoop_exhausted (j + 1) b m op name j 1 e.message le_rfl (by omega)
      (fun i hi1 hi2 => hfail i hi2)
    have hdel := delaysFrom_eq_range b m (j + 1) 0
    simp only [Nat.zero_add] at hdel
    rw [retryLoop_throttle_step_zero (j + 1) b m op name (j + 1) "" e hop hthr, ihres, hdel]

/-- C4: an operation that rejects on its first attempt with a permanent
(non-throttling) error makes `executeWithRetry` rethrow that error at once:
one attempt, no sleep, no retry. -/
theorem executeWithRetry_permanent_first {α : Type} (maxR b m : Nat)
    (op : Nat → Outcome α) (name : String) (e : JsError)
    (h0 : op 0 = .err e) (hperm : isThrottling e = false) :
    executeWithRetry maxR b m op name = ⟨.thrown e, [], 1⟩ := by
  simp [executeWithRetry, retryLoop, h0, hperm]

/-- A throttling error as rejected by AWS Bedrock. -/
def throttleErr : JsError := ⟨"ThrottlingException", none, "Rate exceeded"⟩

/-- A permanent (non-throttling) error. -/
def permErr : JsError := ⟨"ValidationException", some 400, "Invalid request"⟩

/-- Concrete operation that throttles twice and then resolves with 42. -/
def opSucceedsAfterTwo : Nat → Outcome Nat :=
  fun i => if i < 2 then .err throttleErr else .ok 42

/-- Concrete operation that throttles on every attempt. -/
def opAlwaysThrottled : Nat → Outcome Nat := fun _ => .err throttleErr

/-- Concrete operation that rejects permanently on every attempt. -/
def opPermanent : Nat → Outcome Nat := fun _ => .err permErr

/-- C1 witness: with the Mistral retry policy (maxRetries 5, baseDelay 1000,
maxDelay 30000) and an operation that throttles twice then succeeds, the
executor succeeds on the third attempt after two backoff sleeps. -/
theorem executeWithRetry_transient_then_success_witness :
    (2 < 5 ∧ (∀ i, i < 2 → failsThrottling opSucceedsAfterTwo i = true) ∧
      opSucceedsAfterTwo 2 = .ok 42) ∧
    (executeWithRetry 5 1000 30000 opSucceedsAfterTwo "Text Extraction" =
        ⟨.success 42, (List.range 2).map (fun i => min (1000 * 2 ^ i) 30000), 2 + 1⟩ ∧
      ((List.range 2).map (fun i => min (1000 * 2 ^ i) 30000)).Pairwise (· ≤ ·) ∧
      ∀ d ∈ (List.range 2).map (fun i => min (1000 * 2 ^ i) 30000), d ≤ 30000) :=
  ⟨⟨by decide, by decide, by decide⟩,
    executeWithRetry_transient_then_success 5 1000 30000 2 42 opSucceedsAfterTwo
      "Text Extraction" (by decide) (by decide) (by decide)⟩

/-- C2 witness: with the Mistral retry policy and an always-throttled
operation, the executor exhausts all 6 attempts and throws the terminal
error wrapping the last message. -/
theorem executeWithRetry_always_throttled_witness :
    (∀ i, i ≤ 5 → failsThrottling opAlwaysThrottled i = true) ∧
    executeWithRetry 5 1000 30000 opAlwaysThrottled "OCR" =
      ⟨.exhausted (terminalMsg "OCR" 5 (lastMsgOf (opAlwaysThrottled 5))),
       (List.range 5).map (fun i => min (1000 * 2 ^ i) 30000), 5 + 1⟩ :=
  ⟨by decide,
    executeWithRetry_always_throttled 5 1000 30000 opAlwaysThrottled "OCR" (by decide)⟩

/-- C4 witness: a permanently failing operation is rethrown after the first
attempt with no sleeps. -/
theorem executeWithRetry_permanent_first_witness :
    (opPermanent 0 = .err permErr ∧ isThrottling permErr = false) ∧
    executeWithRetry 5 1000 30000 opPermanent "Image Extraction" =
      ⟨.thrown permErr, [], 1⟩ :=
  ⟨⟨by decide, by decide⟩,
    executeWithRetry_permanent_first 5 1000 30000 opPermanent "Image Extraction" permErr
      (by decide) (by decide)⟩

/-- JavaScript `String.prototype.indexOf` for a single character, on the
code-point list of the string: first index holding `t`, if any. -/
def firstIdxOf : List Char → Char → Option Nat
  | [], _ => none
  | c :: rest, t => if c = t then some 0 else (firstIdxOf rest t).map (· + 1)

/-- JavaScript `String.prototype.lastIndexOf` for a single character:
last index holding `t`, if any. -/
def lastIdxOf (l : List Char) (t : Char) : Option Nat :=
  (firstIdxOf l.reverse t).map (fun k => l.length - 1 - k)

/-- JavaScript `String.prototype.substring(s, e)` (with `s ≤ e`): the
code points at indices `s` (inclusive) to `e` (exclusive). -/
def substringList (l : List Char) (s e : Nat) : List Char :=
  (l.take e).drop s

/-- Strategy 1 of `AWSBedrockMistralProvider.extractFromText`: the substring
from the first `{` to the last `}`, provided the last `}` is beyond the
first `{` — `responseText.substring(firstBrace, lastBrace + 1)` guarded by
`firstBrace !== -1 && lastBrace !== -1 && lastBrace > firstBrace`. -/
def mistralStrategy1 (l : List Char) : Option (List Char) :=
  match firstIdxOf l '{', lastIdxOf l '}' with
  | some f, some g => if f < g then some (substringList l f (g + 1)) else none
  | _, _ => none

/-- The balanced-brace loop of strategy 2 of
`AWSBedrockMistralProvider.extractFromText`: walk the whole text with a
running `braceCount`, remembering as `startIndex` the position of any `{`
seen while the count is zero, and stop at the first `}` that returns the
count to zero after a `startIndex` was recorded, yielding
`(startIndex, endIndex)`. -/
def mistralScan : List Char → Int → Option Nat → Nat → Option (Nat × Nat)
  | [], _, _, _ => none
  | c :: rest, bc, si, i =>
    if c = '{' then
      mistralScan rest (bc + 1) (if bc = 0 then some i else si) (i + 1)
    else if c = '}' then
      if bc - 1 = 0 then
        match si with
        | some s => some (s, i)
        | none => mistralScan rest (bc - 1) si (i + 1)
      else mistralScan rest (bc - 1) si (i + 1)
    else mistralScan rest bc si (i + 1)

/-- Strategy 2 of `AWSBedrockMistralProvider.extractFromText`: the substring
delimited by the balanced-brace loop, when it stopped. -/
def mistralStrategy2 (l : List Char) : Option (List Char) :=
  (mistralScan l 0 none 0).map (fun p => substringList l p.1 (p.2 + 1))

/-- Modelled semantics of the JavaScript regex call
`responseText.match(/\{[\s\S]*\}/)` in strategy 3 of
`AWSBedrockMistralProvider.extractFromText`: a match must start at a `{`
and end at a later `}` with `[\s\S]*` (any characters) between; the
leftmost viable start is the first `{` of the text, and the greedy
quantifier extends the match to the last `}`. -/
def jsMatchGreedyBraces (l : List Char) : Option (List Char) :=
  match firstIdxOf l '{', lastIdxOf l '}' with
  | some f, some g => if f < g then some (substringList l f (g + 1)) else none
  | _, _ => none

/-- Strategy 3 of `AWSBedrockMistralProvider.extractFromText`: the regex
match, when there is one. -/
def mistralStrategy3 (l : List Char) : Option (List Char) :=
  jsMatchGreedyBraces l

/-- JSON-candidate recovery of `AWSBedrockMistralProvider.extractFromText`:
`jsonString` starts empty, each strategy runs only while it is still empty
(JavaScript `if (!jsonString)`), and `none` is the
`throw new Error('No valid JSON object found in response')` taken when all
strategies left it empty. -/
def mistralExtract (l : List Char) : Option (List Char) :=
  let j1 := (mistralStrategy1 l).getD []
  let j2 := if j1.isEmpty then (mistralStrategy2 l).getD [] else j1
  let j3 := if j2.isEmpty then (mistralStrategy3 l).getD [] else j2
  if j3.isEmpty then none else some j3

/-- The brace-matching loop of strategy 1 of the Pixtral
`extractFromText`/`extractFromImage`: starting at the first `{` (the scan
list), increment `braceCount` at `{`, decrement at `}`, and stop at the
first position where the count returns to zero. -/
def pixtralFindClose : List Char → Int → Nat → Option Nat
  | [], _, _ => none
  | c :: rest, bc, i =>
    if c = '{' then pixtralFindClose rest (bc + 1) (i + 1)
    else if c = '}' then
      if bc - 1 = 0 then some i else pixtralFindClose rest (bc - 1) (i + 1)
    else pixtralFindClose rest bc (i + 1)

/-- Strategy 1 of the Pixtral extraction recovery: balanced-brace scan from
the first `{`, yielding `responseText.substring(firstBrace, endIndex + 1)`
when `braceCount` reached zero. -/
def pixtralStrategy1 (l : List Char) : Option (List Char) :=
  match firstIdxOf l '{' with
  | none => none
  | some f => (pixtralFindClose (l.drop f) 0 0).map (fun e => substringList l f (f + e + 1))

/-- Modelled semantics of the JavaScript regex call
`responseText.match(/\{[^\x7d]*\}/)` in strategy 2 of the Pixtral
extraction recovery: a match starts at a `{`, spans characters that are
not `}`, and ends at the first following `}`; the leftmost viable start
is the first `{` of the text. -/
def jsMatchMinimalBraces (l : List Char) : Option (List Char) :=
  match firstIdxOf l '{' with
  | none => none
  | some f =>
    match firstIdxOf ((l.drop f).drop 1) '}' with
    | none => none
    | some k => some (substringList l f (f + 1 + k + 1))

/-- Strategy 2 of the Pixtral extraction recovery: the minimal regex match,
when there is one. -/
def pixtralStrategy2 (l : List Char) : Option (List Char) :=
  jsMatchMinimalBraces l

/-- The whitespace characters removed by JavaScript
`String.prototype.trim` that can occur in a line of model output. -/
def isJsSpace (c : Char) : Bool :=
  c = ' ' || c = '\t' || c = '\n' || c = '\r' || c = '\x0b' || c = '\x0c'

/-- JavaScript `String.prototype.trim`: drop whitespace from both ends. -/
def jsTrim (l : List Char) : List Char :=
  ((l.dropWhile isJsSpace).reverse.dropWhile isJsSpace).reverse

/-- JavaScript `String.prototype.split('\n')` on the code-point list. -/
def splitOnNewline : List Char → List (List Char)
  | [] => [[]]
  | c :: rest =>
    if c = '\n' then [] :: splitOnNewline rest
    else
      match splitOnNewline rest with
      | [] => [[c]]
      | h :: t => (c :: h) :: t

/-- The line loop of strategy 3 of the Pixtral extraction recovery: the
first line whose trimmed text starts with `{` and contains `}`. -/
def pixtralPickLine : List (List Char) → Option (List Char)
  | [] => none
  | line :: rest =>
    let trimmed := jsTrim line
    if trimmed.head? = some '{' ∧ '}' ∈ trimmed then some trimmed
    else pixtralPickLine rest

/-- Strategy 3 of the Pixtral extraction recovery: scan the lines of the
response for an object-like structure. -/
def pixtralStrategy3 (l : List Char) : Option (List Char) :=
  pixtralPickLine (splitOnNewline l)

/-- JSON-candidate recovery of the Pixtral `extractFromText` and
`extractFromImage`: same empty-string chaining as the Mistral recovery,
over the Pixtral strategies. -/
def pixtralExtract (l : List Char) : Option (List Char) :=
  let j1 := (pixtralStrategy1 l).getD []
  let j2 := if j1.isEmpty then (pixtralStrategy2 l).getD [] else j1
  let j3 := if j2.isEmpty then (pixtralStrategy3 l).getD [] else j2
  if j3.isEmpty then none else some j3

/-- A found first index is in bounds and holds the sought character. -/
lemma firstIdxOf_spec {t : Char} :
    ∀ {l : List Char} {i : Nat}, firstIdxOf l t = some i → i < l.length ∧ l[i]? = some t := by
  intro l
  induction l with
  | nil => intro i h; simp [firstIdxOf] at h
  | cons c rest ih =>
    intro i h
    by_cases hc : c = t
    · simp [firstIdxOf, hc] at h
      subst h
      simp [hc]
    · simp only [firstIdxOf, if_neg hc] at h
      obtain ⟨j, hj, rfl⟩ := Option.map_eq_some'.mp h
      obtain ⟨hlt, hget⟩ := ih hj
      exact ⟨by simpa using Nat.succ_lt_succ hlt, by simpa using hget⟩

/-- The first index of `t` is at most any index holding `t`. -/
lemma firstIdxOf_le {t : Char} :
    ∀ {l : List Char} {j : Nat}, l[j]? = some t → ∃ i, firstIdxOf l t = some i ∧ i ≤ j := by
  intro l
  induction l with
  | nil => intro j h; simp at h
  | cons c rest ih =>
    intro j h
    by_cases hc : c = t
    · exact ⟨0, by simp [firstIdxOf, hc], Nat.zero_le j⟩
    · cases j with
      | zero => simp at h; exact absurd h hc
      | succ j =>
        rw [List.getElem?_cons_succ] at h
        obtain ⟨i, hi, hle⟩ := ih h
        exact ⟨i + 1, by simp [firstIdxOf, hc, hi], Nat.succ_le_succ hle⟩

/-- A found last index is in bounds and holds the sought character. -/
lemma lastIdxOf_spec {t : Char} {l : List Char} {g : Nat} (h : lastIdxOf l t = some g) :
    g < l.length ∧ l[g]? = some t := by
  unfold lastIdxOf at h
  obtain ⟨k, hk, rfl⟩ := Option.map_eq_some'.mp h
  obtain ⟨hlt, hget⟩ := firstIdxOf_spec hk
  rw [List.length_reverse] at hlt
  rw [List.getElem?_reverse (by simpa using hlt)] at hget
  exact ⟨by omega, hget⟩

/-- The last index of `t` is at least any index holding `t`. -/
lemma lastIdxOf_ge {t : Char} {l : List Char} {j : Nat} (h : l[j]? = some t) :
    ∃ g, lastIdxOf l t = some g ∧ j ≤ g := by
  have hjlt : j < l.length := (List.getElem?_eq_some.mp h).1
  have hrev : l.reverse[l.length - 1 - j]? = some t := by
    rw [List.getElem?_reverse (by omega)]
    rwa [show l.length - 1 - (l.length - 1 - j) = j by omega]
  obtain ⟨k, hk, hle⟩ := firstIdxOf_le hrev
  refine ⟨l.length - 1 - k, by simp [lastIdxOf, hk], by omega⟩

/-- A position pair witnessing that some `{` is followed by a later `}`. -/
def hasBracePair (l : List Char) : Prop :=
  ∃ f g : Nat, f < g ∧ l[f]? = some '{' ∧ l[g]? = some '}'

/-- Strategy 1 of the Mistral recovery finds a candidate exactly on the
texts where some `{` is followed by a later `}`. -/
lemma mistralStrategy1_isSome_iff {l : List Char} :
    (mistralStrategy1 l).isSome ↔ hasBracePair l := by
  constructor
  · intro h
    unfold mistralStrategy1 at h
    unfold hasBracePair
    cases hf : firstIdxOf l '{' with
    | none => simp [hf] at h
    | some f =>
      cases hg : lastIdxOf l '}' with
      | none => simp [hf, hg] at h
      | some g =>
        simp only [hf, hg] at h
        by_cases hfg : f < g
        · refine ⟨f, g, hfg, ?_, ?_⟩
          · exact (firstIdxOf_spec hf).2
          · exact (lastIdxOf_spec hg).2
        · simp [hfg] at h
  · rintro ⟨f0, g0, hlt, hf0, hg0⟩
    obtain ⟨f, hf, hfle⟩ := firstIdxOf_le hf0
    obtain ⟨g, hg, hgle⟩ := lastIdxOf_ge hg0
    have hfg : f < g := by omega
    simp [mistralStrategy1, hf, hg, hfg]

/-- A split of `l` placing a `{` before some later `}` witnesses a brace pair. -/
lemma hasBracePair_of_split {l l1 l2 : List Char} (heq : l = l1 ++ '{' :: l2)
    (hmem : '}' ∈ l2) : hasBracePair l := by
  subst heq
  obtain ⟨k, hk, hget⟩ := List.getElem_of_mem hmem
  refine ⟨l1.length, l1.length + 1 + k, by omega, ?_, ?_⟩
  · rw [List.getElem?_append_right le_rfl]
    simp
  · rw [List.getElem?_append_right (by omega)]
    have h2 : l1.length + 1 + k - l1.length = k + 1 := by omega
    rw [h2, List.getElem?_cons_succ]
    exact List.getElem?_eq_some.mpr ⟨hk, hget⟩

/-- When the balanced-brace loop of the Mistral strategy 2 stops, the
scanned text either contains a `{` followed by a later `}`, or a `}` while
a start index was already recorded on entry. -/
lemma mistralScan_sound :
    ∀ (rest : List Char) (bc : Int) (si : Option Nat) (i s e : Nat),
      mistralScan rest bc si i = some (s, e) →
      (∃ r1 r2, rest = r1 ++ '{' :: r2 ∧ '}' ∈ r2) ∨ (si.isSome = true ∧ '}' ∈ rest) := by
  intro rest
  induction rest with
  | nil => intro bc si i s e h; simp [mistralScan] at h
  | cons c rest ih =>
    intro bc si i s e h
    by_cases hc : c = '{'
    · subst hc
      simp only [mistralScan, if_pos rfl] at h
      rcases ih _ _ _ _ _ h with ⟨r1, r2, heq, hmem⟩ | ⟨hsi, hmem⟩
      · exact Or.inl ⟨'{' :: r1, r2, by rw [heq, List.cons_append], hmem⟩
      · by_cases hbc : bc = 0
        · exact Or.inl ⟨[], rest, rfl, hmem⟩
        · rw [if_neg hbc] at hsi
          exact Or.inr ⟨hsi, List.mem_cons_of_mem _ hmem⟩
    · by_cases hc2 : c = '}'
      · subst hc2
        simp only [mistralScan, if_neg hc, if_pos rfl] at h
        by_cases hbc : bc - 1 = 0
        · rw [if_pos hbc] at h
          cases hsicase : si with
          | some s0 =>
            exact Or.inr ⟨by simp [hsicase], List.mem_cons_self _ _⟩
          | none =>
            rw [hsicase] at h
            simp only at h
            rcases ih _ _ _ _ _ h with ⟨r1, r2, heq, hmem⟩ | ⟨hsi2, _⟩
            · exact Or.inl ⟨'}' :: r1, r2, by rw [heq, List.cons_append], hmem⟩
            · simp at hsi2
        · rw [if_neg hbc] at h
          rcases ih _ _ _ _ _ h with ⟨r1, r2, heq, hmem⟩ | ⟨hsi, hmem⟩
          · exact Or.inl ⟨'}' :: r1, r2, by rw [heq, List.cons_append], hmem⟩
          · exact Or.inr ⟨hsi, List.mem_cons_of_mem _ hmem⟩
      · simp only [mistralScan, if_neg hc, if_neg hc2] at h
        rcases ih _ _ _ _ _ h with ⟨r1, r2, heq, hmem⟩ | ⟨hsi, hmem⟩
        · exact Or.inl ⟨c :: r1, r2, by rw [heq, List.cons_append], hmem⟩
        · exact Or.inr ⟨hsi, List.mem_cons_of_mem _ hmem⟩

/-- The pair returned by the balanced-brace loop of the Mistral strategy 2
is ordered and ends within the scanned text. -/
lemma mistralScan_bounds :
    ∀ (rest : List Char) (bc : Int) (si : Option Nat) (i s e : Nat),
      mistralScan rest bc si i = some (s, e) →
      (∀ s0, si = some s0 → s0 ≤ i) →
      s ≤ e ∧ e < i + rest.length := by
  intro rest
  induction rest with
  | nil => intro bc si i s e h _; simp [mistralScan] at h
  | cons c rest ih =>
    intro bc si i s e h hsi
    by_cases hc : c = '{'
    · simp only [mistralScan, if_pos hc] at h
      have hrec := ih _ _ _ _ _ h (fun s0 h0 => by
        by_cases hbc : bc = 0
        · rw [if_pos hbc] at h0
          simp at h0
          omega
        · rw [if_neg hbc] at h0
          have := hsi s0 h0
          omega)
      refine ⟨hrec.1, ?_⟩
      have := hrec.2
      simp only [List.length_cons]
      omega
    · by_cases hc2 : c = '}'
      · simp only [mistralScan, if_neg hc, if_pos hc2] at h
        by_cases hbc : bc - 1 = 0
        · rw [if_pos hbc] at h
          cases hsicase : si with
          | some s0 =>
            rw [hsicase] at h
            have hs0 := hsi s0 hsicase
            simp only [Option.some.injEq, Prod.mk.injEq] at h
            refine ⟨by omega, ?_⟩
            simp only [List.length_cons]
            omega
          | none =>
            rw [hsicase] at h
            simp only at h
            have hrec := ih _ _ _ _ _ h (fun s0 h0 => by simp at h0)
            refine ⟨hrec.1, ?_⟩
            have := hrec.2
            simp only [List.length_cons]
            omega
        · rw [if_neg hbc] at h
          have hrec := ih _ _ _ _ _ h (fun s0 h0 => by have := hsi s0 h0; omega)
          refine ⟨hrec.1, ?_⟩
          have := hrec.2
          simp only [List.length_cons]
          omega
      · simp only [mistralScan, if_neg hc, if_neg hc2] at h
        have hrec := ih _ _ _ _ _ h (fun s0 h0 => by have := hsi s0 h0; omega)
        refine ⟨hrec.1, ?_⟩
        have := hrec.2
        simp only [List.length_cons]
        omega

/-- A substring with a start strictly inside the text and before its end
bound is non-empty. -/
lemma substringList_ne_nil {l : List Char} {s e : Nat} (h1 : s < e) (h2 : s < l.length) :
    substringList l s e ≠ [] := by
  have hlen : (substringList l s e).length = min e l.length - s := by
    simp [substringList]
  intro hcon
  rw [hcon] at hlen
  simp at hlen
  omega

/-- Candidates produced by strategy 1 of the Mistral recovery are non-empty. -/
lemma mistralStrategy1_ne_nil {l c : List Char} (h : mistralStrategy1 l = some c) :
    c ≠ [] := by
  unfold mistralStrategy1 at h
  cases hf : firstIdxOf l '{' with
  | none => simp [hf] at h
  | some f =>
    cases hg : lastIdxOf l '}' with
    | none => simp [hf, hg] at h
    | some g =>
      simp only [hf, hg] at h
      by_cases hfg : f < g
      · rw [if_pos hfg] at h
        simp only [Option.some.injEq] at h
        subst h
        exact substringList_ne_nil (by omega) (by have := (lastIdxOf_spec hg).1; omega)
      · rw [if_neg hfg] at h
        simp at h

/-- Candidates produced by strategy 2 of the Mistral recovery are non-empty. -/
lemma mistralStrategy2_ne_nil {l c : List Char} (h : mistralStrategy2 l = some c) :
    c ≠ [] := by
  unfold mistralStrategy2 at h
  obtain ⟨⟨s, e⟩, hscan, rfl⟩ := Option.map_eq_some'.mp h
  have hb := mistralScan_bounds l 0 none 0 s e hscan (fun s0 h0 => by simp at h0)
  exact substringList_ne_nil (by omega) (by omega)

/-- Strategy 3 of the Mistral recovery computes exactly strategy 1: the
greedy regex also spans from the first `{` to the last `}`. -/
lemma mistralStrategy3_eq_strategy1 (l : List Char) :
    mistralStrategy3 l = mistralStrategy1 l := rfl

/-- Candidates produced by strategy 3 of the Mistral recovery are non-empty. -/
lemma mistralStrategy3_ne_nil {l c : List Char} (h : mistralStrategy3 l = some c) :
    c ≠ [] :=
  mistralStrategy1_ne_nil (by rwa [mistralStrategy3_eq_strategy1] at h)

/-- The Mistral recovery is the left-biased chain of its three strategies. -/
lemma mistralExtract_eq_orElse (l : List Char) :
    mistralExtract l =
      (mistralStrategy1 l).orElse fun _ =>
        (mistralStrategy2 l).orElse fun _ => mistralStrategy3 l := by
  unfold mistralExtract
  cases h1 : mistralStrategy1 l with
  | some c =>
    have hne := mistralStrategy1_ne_nil h1
    simp [Option.orElse, List.isEmpty_iff, hne]
  | none =>
    cases h2 : mistralStrategy2 l with
    | some c =>
      have hne := mistralStrategy2_ne_nil h2
      simp [Option.orElse, List.isEmpty_iff, hne]
    | none =>
      cases h3 : mistralStrategy3 l with
      | some c =>
        have hne := mistralStrategy3_ne_nil h3
        simp [Option.orElse, List.isEmpty_iff, hne]
      | none => simp [Option.orElse]

/-- Candidates produced by strategy 1 of the Pixtral recovery are non-empty. -/
lemma pixtralStrategy1_ne_nil {l c : List Char} (h : pixtralStrategy1 l = some c) :
    c ≠ [] := by
  unfold pixtralStrategy1 at h
  cases hf : firstIdxOf l '{' with
  | none => simp [hf] at h
  | some f =>
    simp only [hf] at h
    obtain ⟨e, _, rfl⟩ := Option.map_eq_some'.mp h
    exact substringList_ne_nil (by omega) (firstIdxOf_spec hf).1

/-- Candidates produced by strategy 2 of the Pixtral recovery are non-empty. -/
lemma pixtralStrategy2_ne_nil {l c : List Char} (h : pixtralStrategy2 l = some c) :
    c ≠ [] := by
  unfold pixtralStrategy2 jsMatchMinimalBraces at h
  cases hf : firstIdxOf l '{' with
  | none => simp [hf] at h
  | some f =>
    simp only [hf] at h
    cases hk : firstIdxOf ((l.drop f).drop 1) '}' with
    | none =>
      simp only [hk] at h
      simp at h
    | some k =>
      simp only [hk, Option.some.injEq] at h
      subst h
      exact substringList_ne_nil (by omega) (firstIdxOf_spec hf).1

/-- Candidates produced by the line loop of the Pixtral strategy 3 are
non-empty. -/
lemma pixtralPickLine_ne_nil {ls : List (List Char)} {c : List Char}
    (h : pixtralPickLine ls = some c) : c ≠ [] := by
  induction ls with
  | nil => simp [pixtralPickLine] at h
  | cons line rest ih =>
    simp only [pixtralPickLine] at h
    by_cases hcond : (jsTrim line).head? = some '{' ∧ '}' ∈ jsTrim line
    · rw [if_pos hcond] at h
      simp only [Option.some.injEq] at h
      subst h
      intro hcon
      rw [hcon] at hcond
      simp at hcond
    · rw [if_neg hcond] at h
      exact ih h

/-- Candidates produced by strategy 3 of the Pixtral recovery are non-empty. -/
lemma pixtralStrategy3_ne_nil {l c : List Char} (h : pixtralStrategy3 l = some c) :
    c ≠ [] :=
  pixtralPickLine_ne_nil h

/-- The Pixtral recovery is the left-biased chain of its three strategies. -/
lemma pixtralExtract_eq_orElse (l : List Char) :
    pixtralExtract l =
      (pixtralStrategy1 l).orElse fun _ =>
        (pixtralStrategy2 l).orElse fun _ => pixtralStrategy3 l := by
  unfold pixtralExtract
  cases h1 : pixtralStrategy1 l with
  | some c =>
    have hne := pixtralStrategy1_ne_nil h1
    simp [Option.orElse, List.isEmpty_iff, hne]
  | none =>
    cases h2 : pixtralStrategy2 l with
    | some c =>
      have hne := pixtralStrategy2_ne_nil h2
      simp [Option.orElse, List.isEmpty_iff, hne]
    | none =>
      cases h3 : pixtralStrategy3 l with
      | some c =>
        have hne := pixtralStrategy3_ne_nil h3
        simp [Option.orElse, List.isEmpty_iff, hne]
      | none => simp [Option.orElse]

/-- A candidate from the Mistral strategy 2 implies a brace pair in the text. -/
lemma mistralStrategy2_isSome_imp {l : List Char} (h : (mistralStrategy2 l).isSome = true) :
    hasBracePair l := by
  unfold mistralStrategy2 at h
  cases hscan : mistralScan l 0 none 0 with
  | none => rw [hscan] at h; simp at h
  | some p =>
    obtain ⟨s, e⟩ := p
    rcases mistralScan_sound l 0 none 0 s e hscan with ⟨r1, r2, heq, hmem⟩ | ⟨hsi, _⟩
    · exact hasBracePair_of_split heq hmem
    · simp at hsi

/-- C9: in the Mistral JSON recovery the fallback strategies are dead code:
strategy 2 finds a candidate only when strategy 1 does, strategy 3 computes
exactly strategy 1, and the whole three-strategy recovery equals strategy 1
alone on every response text. -/
theorem mistral_fallback_strategies_dead_code (l : List Char) :
    mistralExtract l = mistralStrategy1 l ∧
    (mistralStrategy2 l).isSome ≤ (mistralStrategy1 l).isSome ∧
    mistralStrategy3 l = mistralStrategy1 l := by
  have himp : (mistralStrategy2 l).isSome = true → (mistralStrategy1 l).isSome = true :=
    fun h => mistralStrategy1_isSome_iff.mpr (mistralStrategy2_isSome_imp h)
  refine ⟨?_, ?_, mistralStrategy3_eq_strategy1 l⟩
  · rw [mistralExtract_eq_orElse l]
    cases h1 : mistralStrategy1 l with
    | some c => simp [Option.orElse]
    | none =>
      have h2 : mistralStrategy2 l = none := by
        cases h2 : mistralStrategy2 l with
        | none => rfl
        | some c =>
          have := himp (by simp [h2])
          rw [h1] at this
          simp at this
      rw [mistralStrategy3_eq_strategy1 l, h1, h2]
      simp [Option.orElse]
  · cases h2 : (mistralStrategy2 l).isSome with
    | false => exact Bool.false_le _
    | true => rw [himp h2]

/-- C5 counterexample: on the response text containing two JSON objects the
Pixtral recovery returns the balanced-scan candidate (the first object),
not the candidate delimited by the exact bounds from the first opening
brace to the last closing brace, so the Pixtral recovery does not try the
exact-bounds strategy first. -/
theorem pixtral_recovery_order_counterexample :
    pixtralExtract ("\x7b\"a\": 1\x7d \x7b\"b\": 2\x7d".toList) =
      some ("\x7b\"a\": 1\x7d".toList) ∧
    mistralStrategy1 ("\x7b\"a\": 1\x7d \x7b\"b\": 2\x7d".toList) =
      some ("\x7b\"a\": 1\x7d \x7b\"b\": 2\x7d".toList) ∧
    pixtralExtract ("\x7b\"a\": 1\x7d \x7b\"b\": 2\x7d".toList) ≠
      mistralStrategy1 ("\x7b\"a\": 1\x7d \x7b\"b\": 2\x7d".toList) :=
  ⟨by decide, by decide, by decide⟩

/-- C5 as amended: each provider's JSON recovery is the left-biased chain of
its own three strategies — for the Mistral provider (1) exact bounds from
the first `{` to the last `}`, (2) balanced-brace scan, (3) greedy pattern
match; for the Pixtral provider (1) balanced-brace scan from the first `{`,
(2) minimal pattern match, (3) first object-like line — and each raises its
parse error (returns no candidate) exactly when all three of its strategies
produce no candidate. -/
theorem extraction_recovery_layered (l : List Char) :
    mistralExtract l =
      ((mistralStrategy1 l).orElse fun _ =>
        (mistralStrategy2 l).orElse fun _ => mistralStrategy3 l) ∧
    pixtralExtract l =
      ((pixtralStrategy1 l).orElse fun _ =>
        (pixtralStrategy2 l).orElse fun _ => pixtralStrategy3 l) ∧
    (mistralExtract l = none ↔
      mistralStrategy1 l = none ∧ mistralStrategy2 l = none ∧ mistralStrategy3 l = none) ∧
    (pixtralExtract l = none ↔
      pixtralStrategy1 l = none ∧ pixtralStrategy2 l = none ∧ pixtralStrategy3 l = none) := by
  refine ⟨mistralExtract_eq_orElse l, pixtralExtract_eq_orElse l, ?_, ?_⟩
  · rw [mistralExtract_eq_orElse l]
    cases h1 : mistralStrategy1 l <;> cases h2 : mistralStrategy2 l <;>
      cases h3 : mistralStrategy3 l <;> simp [Option.orElse]
  · rw [pixtralExtract_eq_orElse l]
    cases h1 : pixtralStrategy1 l <;> cases h2 : pixtralStrategy2 l <;>
      cases h3 : pixtralStrategy3 l <;> simp [Option.orElse]

/-- The provider constructors referenced by `MODEL_PROVIDERS` in
`src/models/registry.ts`. -/
inductive ProviderCtor where
  | LLMProvider
  | AWSTextractProvider
  | AWSBedrockProvider
  | AWSBedrockMistralProvider
  | AWSBedrockPixtralProvider
  | GeminiProvider
  | GoogleDocumentAIProvider
  | AzureDocumentIntelligenceProvider
  | MistralProvider
  | OmniAIProvider
  | OpenAIProvider
  | MaritacaProvider
  | OpenRouterProvider
  | TogetherProvider
  | DashscopeProvider
  | UnstructuredProvider
  | ZeroxProvider
deriving DecidableEq, Repr

/-- One entry of `MODEL_PROVIDERS`: its model identifier list and its
provider constructor (`none` models the `groundTruth` entry, whose
`provider` is `undefined`). -/
structure ProviderGroup where
  models : List String
  provider : Option ProviderCtor
deriving DecidableEq, Repr

/-- `OPENAI_MODELS` of `src/models/registry.ts`. -/
def OPENAI_MODELS : List String :=
  ["chatgpt-4o-latest", "gpt-4o-mini", "gpt-4o", "o1", "o1-mini", "o3-mini", "o4-mini",
   "gpt-4o-2024-11-20", "gpt-4.1", "gpt-4.1-mini", "gpt-4.1-nano"]

/-- `AZURE_OPENAI_MODELS` of `src/models/registry.ts`. -/
def AZURE_OPENAI_MODELS : List String :=
  ["azure-gpt-4o-mini", "azure-gpt-4o", "azure-o1", "azure-o1-mini", "azure-o3-mini",
   "azure-gpt-4.1", "azure-gpt-4.1-mini", "azure-gpt-4.1-nano"]

/-- `ANTHROPIC_MODELS` of `src/models/registry.ts`. -/
def ANTHROPIC_MODELS : List String :=
  ["claude-3-5-sonnet-20241022", "claude-3-7-sonnet-20250219"]

/-- `DEEPSEEK_MODELS` of `src/models/registry.ts`. -/
def DEEPSEEK_MODELS : List String := ["deepseek-chat"]

/-- `GOOGLE_GENERATIVE_AI_MODELS` of `src/models/registry.ts`. -/
def GOOGLE_GENERATIVE_AI_MODELS : List String :=
  ["gemini-1.5-pro", "gemini-1.5-flash", "gemini-2.0-flash-001", "gemini-2.5-pro-exp-03-25",
   "gemini-2.5-pro-preview-03-25", "gemini-2.5-pro-preview-05-06",
   "gemini-2.5-flash-preview-04-17"]

/-- `OPENROUTER_MODELS` of `src/models/registry.ts`. -/
def OPENROUTER_MODELS : List String :=
  ["qwen/qwen2.5-vl-32b-instruct:free", "qwen/qwen-2.5-vl-72b-instruct",
   "deepseek/deepseek-chat-v3-0324", "meta-llama/llama-3.2-11b-vision-instruct",
   "meta-llama/llama-3.2-90b-vision-instruct"]

/-- `TOGETHER_MODELS` of `src/models/registry.ts`. -/
def TOGETHER_MODELS : List String :=
  ["meta-llama/Llama-3.2-11B-Vision-Instruct-Turbo",
   "meta-llama/Llama-3.2-90B-Vision-Instruct-Turbo",
   "meta-llama/Llama-4-Scout-17B-16E-Instruct",
   "meta-llama/Llama-4-Maverick-17B-128E-Instruct-FP8"]

/-- `MARITACA_MODELS` of `src/models/registry.ts`. -/
def MARITACA_MODELS : List String := ["sabia-3", "sabia-3.1", "sabiazinho-3"]

/-- `FINETUNED_MODELS` of `src/models/registry.ts` (empty). -/
def FINETUNED_MODELS : List String := []

/-- `AWS_BEDROCK_MODELS` of `src/models/registry.ts`. -/
def AWS_BEDROCK_MODELS : List String := ["us.meta.llama4-maverick-17b-instruct-v1:0"]

/-- `AWS_BEDROCK_MISTRAL_MODELS` of `src/models/registry.ts`. -/
def AWS_BEDROCK_MISTRAL_MODELS : List String := ["mistral.mixtral-8x7b-instruct-v0:1"]

/-- `AWS_BEDROCK_PIXTRAL_MODELS` of `src/models/registry.ts`. -/
def AWS_BEDROCK_PIXTRAL_MODELS : List String := ["pixtral-12b-v1", "pixtral-12b-instruct-v1"]

/-- The `MODEL_PROVIDERS` object of `src/models/registry.ts` in key
insertion order, which is the order `Object.values` enumerates. -/
def MODEL_PROVIDERS : List ProviderGroup :=
  [⟨ANTHROPIC_MODELS, some .LLMProvider⟩,
   ⟨["aws-textract"], some .AWSTextractProvider⟩,
   ⟨AWS_BEDROCK_MODELS, some .AWSBedrockProvider⟩,
   ⟨AWS_BEDROCK_MISTRAL_MODELS, some .AWSBedrockMistralProvider⟩,
   ⟨AWS_BEDROCK_PIXTRAL_MODELS, some .AWSBedrockPixtralProvider⟩,
   ⟨AZURE_OPENAI_MODELS, some .LLMProvider⟩,
   ⟨GOOGLE_GENERATIVE_AI_MODELS, some .GeminiProvider⟩,
   ⟨["google-document-ai"], some .GoogleDocumentAIProvider⟩,
   ⟨DEEPSEEK_MODELS, some .LLMProvider⟩,
   ⟨["azure-document-intelligence"], some .AzureDocumentIntelligenceProvider⟩,
   ⟨["mistral-ocr"], some .MistralProvider⟩,
   ⟨["omniai"], some .OmniAIProvider⟩,
   ⟨OPENAI_MODELS, some .LLMProvider⟩,
   ⟨MARITACA_MODELS, some .MaritacaProvider⟩,
   ⟨["google/gemma-3-27b-it"], some .OpenAIProvider⟩,
   ⟨OPENROUTER_MODELS, some .OpenRouterProvider⟩,
   ⟨TOGETHER_MODELS, some .TogetherProvider⟩,
   ⟨["qwen2.5-vl-32b-instruct", "qwen2.5-vl-72b-instruct"], some .DashscopeProvider⟩,
   ⟨["unstructured"], some .UnstructuredProvider⟩,
   ⟨["zerox"], some .ZeroxProvider⟩,
   ⟨["ground-truth"], none⟩]

/-- The groups searched by `getModelProvider`: it first assigns
`MODEL_PROVIDERS['openaiFt'] = \x7b models: FINETUNED_MODELS, provider: LLMProvider \x7d`,
which appends an `openaiFt` key at the end of the insertion order. -/
def providersWithFineTuned : List ProviderGroup :=
  MODEL_PROVIDERS ++ [⟨FINETUNED_MODELS, some .LLMProvider⟩]

/-- What a call to `getModelProvider` produces: a provider instance
constructed for the model, `undefined`, the thrown unsupported-model error,
or the crash of calling `new` on an `undefined` provider (unreachable). -/
inductive LookupResult where
  | resolved (p : ProviderCtor) (model : String)
  | undef
  | unsupported (msg : String)
  | typeError
deriving DecidableEq, Repr

/-- True on results that carry a constructed provider instance. -/
def LookupResult.isResolved : LookupResult → Bool
  | .resolved _ _ => true
  | _ => false

/-- `getModelProvider` of `src/models/registry.ts`: find the first group
whose `models` includes the identifier; if found, return `undefined` for
`ground-truth`, otherwise construct the group's provider; with no matching
group, throw `` `Model '${model}' is not supported.` ``. -/
def getModelProvider (model : String) : LookupResult :=
  match providersWithFineTuned.find? (fun g => g.models.contains model) with
  | some g =>
    if model = "ground-truth" then .undef
    else
      match g.provider with
      | some p => .resolved p model
      | none => .typeError
  | none => .unsupported ("Model \x27" ++ model ++ "\x27 is not supported.")

/-- Every model identifier listed in some group of the registry (after the
fine-tuned group is added). -/
def registryAllModels : List String :=
  (providersWithFineTuned.map ProviderGroup.models).flatten

/-- C6: an identifier listed in no provider group makes `getModelProvider`
throw the unsupported-model error naming the model; in particular no
provider instance is returned for it. -/
theorem getModelProvider_unknown_model (m : String) (h : m ∉ registryAllModels) :
    getModelProvider m = .unsupported ("Model \x27" ++ m ++ "\x27 is not supported.") := by
  unfold getModelProvider
  have hfind : providersWithFineTuned.find? (fun g => g.models.contains m) = none := by
    rw [List.find?_eq_none]
    intro g hg hcon
    apply h
    unfold registryAllModels
    rw [List.mem_flatten]
    exact ⟨g.models, List.mem_map_of_mem _ hg, List.mem_of_elem_eq_true hcon⟩
  rw [hfind]

/-- C6 witness: a concrete unknown identifier is rejected with the
unsupported-model error. -/
theorem getModelProvider_unknown_model_witness :
    "totally-unknown-model" ∉ registryAllModels ∧
    getModelProvider "totally-unknown-model" =
      .unsupported ("Model \x27" ++ "totally-unknown-model" ++ "\x27 is not supported.") :=
  ⟨by decide, getModelProvider_unknown_model "totally-unknown-model" (by decide)⟩

/-- C10: `getModelProvider` applied to `ground-truth` returns `undefined`
rather than constructing a provider or throwing, and `ground-truth` is the
only listed identifier for which no provider instance is returned. -/
theorem getModelProvider_ground_truth_undefined :
    getModelProvider "ground-truth" = .undef ∧
    registryAllModels.all
      (fun m => m == "ground-truth" || (getModelProvider m).isResolved) = true := by
  constructor
  · decide
  · decide

/-- The `TOKEN_COST` table of `src/models/shared/tokenCost.ts`: cost per
million tokens (input rate, output rate) per model identifier, as exact
rationals. -/
def TOKEN_COST : List (String × ℚ × ℚ) :=
  [("azure-gpt-4o", 2.5, 10),
   ("azure-gpt-4o-mini", 0.15, 0.6),
   ("azure-gpt-4.1", 2, 8),
   ("azure-gpt-4.1-mini", 0.4, 1.6),
   ("azure-gpt-4.1-nano", 0.1, 0.4),
   ("azure-o1", 15, 60),
   ("azure-o1-mini", 1.1, 4.4),
   ("azure-o3-mini", 1.1, 4.4),
   ("claude-3-5-sonnet-20241022", 3, 15),
   ("claude-3-7-sonnet-20250219", 3, 15),
   ("claude-sonnet-4-20250514", 3, 15),
   ("deepseek-chat", 0.14, 0.28),
   ("gemini-1.5-pro", 1.25, 5),
   ("gemini-1.5-flash", 0.075, 0.3),
   ("gemini-2.0-flash-001", 0.1, 0.4),
   ("gemini-2.5-pro-exp-03-25", 1.25, 10),
   ("gemini-2.5-pro-preview-03-25", 1.25, 10),
   ("gemini-2.5-pro-preview-05-06", 1.25, 10),
   ("gemini-2.5-flash-preview-04-17", 0.15, 0.6),
   ("gpt-4o", 2.5, 10),
   ("gpt-4o-2024-11-20", 2.5, 10),
   ("gpt-4o-mini", 0.15, 0.6),
   ("gpt-4.1", 2, 8),
   ("gpt-4.1-mini", 0.4, 1.6),
   ("gpt-4.1-nano", 0.1, 0.4),
   ("o1", 15, 60),
   ("o1-mini", 1.1, 4.4),
   ("o3-mini", 1.1, 4.4),
   ("o4-mini", 1.1, 4.4),
   ("chatgpt-4o-latest", 2.5, 10),
   ("zerox", 2.5, 10),
   ("qwen2.5-vl-32b-instruct", 0, 0),
   ("qwen2.5-vl-72b-instruct", 0, 0),
   ("google/gemma-3-27b-it", 0.1, 0.2),
   ("deepseek/deepseek-chat-v3-0324", 0.27, 1.1),
   ("meta-llama/llama-3.2-11b-vision-instruct", 0.055, 0.055),
   ("meta-llama/llama-3.2-90b-vision-instruct", 0.8, 1.6),
   ("meta-llama/Llama-3.2-11B-Vision-Instruct-Turbo", 0.18, 0.18),
   ("meta-llama/Llama-3.2-90B-Vision-Instruct-Turbo", 1.2, 1.2),
   ("meta-llama/Llama-4-Scout-17B-16E-Instruct", 0.18, 0.59),
   ("meta-llama/Llama-4-Maverick-17B-128E-Instruct-FP8", 0.27, 0.85),
   ("sabia-3", 0.89, 1.77),
   ("sabia-3.1", 0.89, 1.77),
   ("sabiazinho-3", 0.18, 0.53),
   ("aaditya/OpenBioLLM-Llama3-70B", 0.18, 0.18),
   ("aaditya/OpenBioLLM-Llama3-70B-Instruct", 0.18, 0.18),
   ("us.meta.llama4-maverick-17b-instruct-v1:0", 0.1, 0.2),
   ("mistral.mixtral-8x7b-instruct-v0:1", 0.7, 2.4),
   ("pixtral-12b-v1", 0.1, 0.2),
   ("pixtral-12b-instruct-v1", 0.1, 0.2)]

/-- The `type` argument of `calculateTokenCost`. -/
inductive CostType where
  | input
  | output
deriving DecidableEq, Repr

/-- Rate selection `modelInfo[type]`. -/
def rateOf (r : ℚ × ℚ) : CostType → ℚ
  | .input => r.1
  | .output => r.2

/-- Key lookup in a rate table. -/
def lookupRate (table : List (String × ℚ × ℚ)) (model : String) : Option (ℚ × ℚ) :=
  (table.find? (fun entry => entry.1 == model)).map (fun entry => entry.2)

/-- `calculateTokenCost` of `src/models/shared/tokenCost.ts`: build the
fine-tuned cost table from `FINETUNED_MODELS` (rates 3.75 and 15.0), merge
it over `TOKEN_COST` (spread semantics: fine-tuned keys win), look the
model up — throwing (`none`) when absent — and return
`modelInfo[type] * tokens / 1_000_000`. -/
def calculateTokenCost (model : String) (type : CostType) (tokens : Nat) : Option ℚ :=
  let fineTuneCost : List (String × ℚ × ℚ) :=
    FINETUNED_MODELS.map (fun el => (el, 3.75, 15.0))
  match lookupRate fineTuneCost model with
  | some r => some (rateOf r type * tokens / 1000000)
  | none =>
    match lookupRate TOKEN_COST model with
    | some r => some (rateOf r type * tokens / 1000000)
    | none => none

/-- The `Usage` record of `src/types` as produced by provider calls:
duration (ms), token counts, and costs. -/
structure Usage where
  duration : ℚ
  inputTokens : Nat
  outputTokens : Nat
  totalTokens : Nat
  inputCost : ℚ
  outputCost : ℚ
  totalCost : ℚ
deriving DecidableEq, Repr

/-- The usage record assembled by `AWSBedrockMistralProvider.extractFromText`
from the response token counts and the measured duration; `none` when
`calculateTokenCost` throws on an unknown model. -/
def mkBedrockMistralExtractUsage (model : String) (duration : ℚ)
    (inputTokens outputTokens : Nat) : Option Usage :=
  match calculateTokenCost model .input inputTokens,
      calculateTokenCost model .output outputTokens with
  | some inputCost, some outputCost =>
    some ⟨duration, inputTokens, outputTokens, inputTokens + outputTokens,
          inputCost, outputCost, inputCost + outputCost⟩
  | _, _ => none

/-- The usage record assembled by `AWSBedrockPixtralProvider.ocr`. -/
def mkBedrockPixtralOcrUsage (model : String) (duration : ℚ)
    (inputTokens outputTokens : Nat) : Option Usage :=
  match calculateTokenCost model .input inputTokens,
      calculateTokenCost model .output outputTokens with
  | some inputCost, some outputCost =>
    some ⟨duration, inputTokens, outputTokens, inputTokens + outputTokens,
          inputCost, outputCost, inputCost + outputCost⟩
  | _, _ => none

/-- The usage record assembled by `MaritacaProvider.ocr` from the prompt and
completion token counts. -/
def mkMaritacaOcrUsage (model : String) (duration : ℚ)
    (inputTokens outputTokens : Nat) : Option Usage :=
  match calculateTokenCost model .input inputTokens,
      calculateTokenCost model .output outputTokens with
  | some inputCost, some outputCost =>
    some ⟨duration, inputTokens, outputTokens, inputTokens + outputTokens,
          inputCost, outputCost, inputCost + outputCost⟩
  | _, _ => none

/-- C8: every usage record returned by a successful provider call satisfies
totalTokens = inputTokens + outputTokens and totalCost = inputCost +
outputCost. -/
theorem usage_totals_additive (model : String) (duration : ℚ)
    (inputTokens outputTokens : Nat) (u : Usage)
    (h : mkBedrockMistralExtractUsage model duration inputTokens outputTokens = some u ∨
         mkBedrockPixtralOcrUsage model duration inputTokens outputTokens = some u ∨
         mkMaritacaOcrUsage model duration inputTokens outputTokens = some u) :
    u.totalTokens = u.inputTokens + u.outputTokens ∧
    u.totalCost = u.inputCost + u.outputCost := by
  have hgen : ∀ (f : String → ℚ → Nat → Nat → Option Usage),
      (∀ m d it ot, f m d it ot =
        match calculateTokenCost m .input it, calculateTokenCost m .output ot with
        | some ic, some oc => some ⟨d, it, ot, it + ot, ic, oc, ic + oc⟩
        | _, _ => none) →
      f model duration inputTokens outputTokens = some u →
      u.totalTokens = u.inputTokens + u.outputTokens ∧
      u.totalCost = u.inputCost + u.outputCost := by
    intro f hf hu
    rw [hf] at hu
    cases hic : calculateTokenCost model .input inputTokens with
    | none => rw [hic] at hu; simp at hu
    | some ic =>
      cases hoc : calculateTokenCost model .output outputTokens with
      | none => rw [hic, hoc] at hu; simp at hu
      | some oc =>
        rw [hic, hoc] at hu
        simp only [Option.some.injEq] at hu
        subst hu
        exact ⟨rfl, rfl⟩
  rcases h with h | h | h
  · exact hgen mkBedrockMistralExtractUsage (fun _ _ _ _ => rfl) h
  · exact hgen mkBedrockPixtralOcrUsage (fun _ _ _ _ => rfl) h
  · exact hgen mkMaritacaOcrUsage (fun _ _ _ _ => rfl) h

/-- C8 witness: the Mistral extraction usage for 10 input and 20 output
tokens at the model's table rates (0.7 and 2.4 per million). -/
theorem usage_totals_additive_witness :
    mkBedrockMistralExtractUsage "mistral.mixtral-8x7b-instruct-v0:1" 0 10 20 =
      some ⟨0, 10, 20, 30, 7 / 1000000, 48 / 1000000, 55 / 1000000⟩ ∧
    ((30 : Nat) = 10 + 20 ∧ (55 / 1000000 : ℚ) = 7 / 1000000 + 48 / 1000000) := by
  have hu : mkBedrockMistralExtractUsage "mistral.mixtral-8x7b-instruct-v0:1" 0 10 20 =
      some ⟨0, 10, 20, 30, 7 / 1000000, 48 / 1000000, 55 / 1000000⟩ := by
    simp [mkBedrockMistralExtractUsage, calculateTokenCost, lookupRate, TOKEN_COST,
      FINETUNED_MODELS, rateOf, List.find?]
    norm_num
  exact ⟨hu, usage_totals_additive "mistral.mixtral-8x7b-instruct-v0:1" 0 10 20
    ⟨0, 10, 20, 30, 7 / 1000000, 48 / 1000000, 55 / 1000000⟩ (Or.inl hu)⟩

/-- The `JsonSchema` argument of the extraction calls; its contents are
never inspected by any modelled code path. -/
structure JsonSchema where
  raw : String
deriving DecidableEq, Repr

/-- Successful result shape of a provider `ocr` call. -/
structure OcrSuccess where
  text : String
  imageBase64s : Option (List String)
  usage : Usage
deriving DecidableEq, Repr

/-- Successful result shape of a provider `extractFromImage` call; the JSON
value is kept as its serialized text. -/
structure ExtractSuccess where
  json : String
  usage : Usage
deriving DecidableEq, Repr

/-- The error thrown by `AWSBedrockMistralProvider.ocr` and
`AWSBedrockMistralProvider.extractFromImage` (a plain `Error`, so its name
is `Error` and it carries no HTTP status code). -/
def mistralUnsupportedError : JsError :=
  ⟨"Error", none,
   "Mistral Mixtral-8x7b-instruct-v0:1 does not support direct image processing. Use extractFromText instead with pre-processed OCR text."⟩

/-- `AWSBedrockMistralProvider.ocr`: throws unconditionally, without ever
entering `executeWithRetry`. -/
def mistralOcr (imagePath : String) : Outcome OcrSuccess :=
  .err mistralUnsupportedError

/-- `AWSBedrockMistralProvider.extractFromImage`: throws unconditionally,
without ever entering `executeWithRetry`. -/
def mistralExtractFromImage (imagePath : String) (schema : JsonSchema) : Outcome ExtractSuccess :=
  .err mistralUnsupportedError

/-- C7: on every input the Mistral provider's `ocr` and `extractFromImage`
throw the unsupported-operation error immediately; the error is not a
throttling error, so even an operation built from it is rethrown by the
retry executor after one attempt with no sleep and no retry. -/
theorem mistral_image_ops_unsupported (imagePath : String) (schema : JsonSchema) :
    mistralOcr imagePath = .err mistralUnsupportedError ∧
    mistralExtractFromImage imagePath schema = .err mistralUnsupportedError ∧
    isThrottling mistralUnsupportedError = false ∧
    executeWithRetry AWSBedrockMistral.MAX_RETRIES AWSBedrockMistral.BASE_DELAY
      AWSBedrockMistral.MAX_DELAY (fun _ => mistralOcr imagePath) "OCR" =
      ⟨.thrown mistralUnsupportedError, [], 1⟩ := by
  refine ⟨rfl, rfl, by decide, ?_⟩
  simp [executeWithRetry, AWSBedrockMistral.MAX_RETRIES, AWSBedrockMistral.BASE_DELAY,
    AWSBedrockMistral.MAX_DELAY, retryLoop, mistralOcr, mistralUnsupportedError, isThrottling]

/-- C3: the retry constants of the two executors, evaluated from the code:
the Mistral provider uses maxRetries 5, baseDelay 1000 ms and maxDelay
30000 ms, but the Pixtral provider uses baseDelay 2000 ms and maxDelay
60000 ms, contradicting the documented 1000 ms / 30000 ms defaults. -/
theorem retry_policy_constants_vs_documented :
    AWSBedrockMistral.MAX_RETRIES = 5 ∧ AWSBedrockMistral.BASE_DELAY = 1000 ∧
    AWSBedrockMistral.MAX_DELAY = 30000 ∧
    AWSBedrockPixtral.MAX_RETRIES = 5 ∧ AWSBedrockPixtral.BASE_DELAY = 2000 ∧
    AWSBedrockPixtral.MAX_DELAY = 60000 ∧
    ¬(AWSBedrockPixtral.BASE_DELAY = 1000 ∧ AWSBedrockPixtral.MAX_DELAY = 30000) := by
  decide
